import Mathlib

/-!
Verification of the contact-book manager (src/main.py) against its
natural-language specification.

The Python source is shallowly embedded below: pure functions become Lean
functions, constructors that raise ValueError become Except-valued
functions, and the proleptic Gregorian calendar arithmetic of the datetime
module (toordinal, weekday, timedelta addition, strftime and strptime for
the fixed format string used by the program) is modelled explicitly.
The reference date today, obtained from the system clock in the source,
is passed as an explicit parameter.
-/

/-- A calendar date, as year, month and day, mirroring datetime.date. -/
structure Date where
  year : Nat
  month : Nat
  day : Nat
deriving DecidableEq, Repr

/-- Gregorian leap year rule, as in the datetime module. -/
def isLeap (y : Nat) : Bool :=
  (y % 4 == 0 && y % 100 != 0) || y % 400 == 0

/-- Days in a month of a given year (0 for an out-of-range month). -/
def daysInMonth (y m : Nat) : Nat :=
  match m with
  | 1 => 31
  | 2 => if isLeap y then 29 else 28
  | 3 => 31
  | 4 => 30
  | 5 => 31
  | 6 => 30
  | 7 => 31
  | 8 => 31
  | 9 => 30
  | 10 => 31
  | 11 => 30
  | 12 => 31
  | _ => 0

/-- Validity of a date, as checked by the datetime.date constructor.
The MAXYEAR = 9999 upper bound of datetime is not modelled; no claim
involves reference dates at that extreme. -/
def isValidDate (d : Date) : Prop :=
  1 ≤ d.year ∧ 1 ≤ d.month ∧ d.month ≤ 12 ∧ 1 ≤ d.day ∧ d.day ≤ daysInMonth d.year d.month

instance (d : Date) : Decidable (isValidDate d) := by
  unfold isValidDate; infer_instance

/-- Days in the given year strictly before the first of the given month
(datetime internal _days_before_month). -/
def daysBeforeMonth (y m : Nat) : Nat :=
  match m with
  | 1 => 0
  | 2 => 31
  | 3 => 59 + (if isLeap y then 1 else 0)
  | 4 => 90 + (if isLeap y then 1 else 0)
  | 5 => 120 + (if isLeap y then 1 else 0)
  | 6 => 151 + (if isLeap y then 1 else 0)
  | 7 => 181 + (if isLeap y then 1 else 0)
  | 8 => 212 + (if isLeap y then 1 else 0)
  | 9 => 243 + (if isLeap y then 1 else 0)
  | 10 => 273 + (if isLeap y then 1 else 0)
  | 11 => 304 + (if isLeap y then 1 else 0)
  | 12 => 334 + (if isLeap y then 1 else 0)
  | _ => 0

/-- Proleptic Gregorian ordinal of a date (datetime.date.toordinal):
day 1 is 0001-01-01.  The Python expression
365*(y-1) + (y-1)//4 - (y-1)//100 + (y-1)//400 + before + day
is regrouped so the single subtraction comes last; the value is unchanged
because (y-1)//100 ≤ (y-1)//4. -/
def toordinal (d : Date) : Nat :=
  365 * (d.year - 1) + (d.year - 1) / 4 + (d.year - 1) / 400
    + daysBeforeMonth d.year d.month + d.day - (d.year - 1) / 100

/-- Weekday with Monday = 0 .. Sunday = 6 (datetime.date.weekday).
0001-01-01, ordinal 1, is a Monday. -/
def weekday (d : Date) : Nat :=
  (toordinal d + 6) % 7

/-- The day after a date (how timedelta(days=1) acts on a valid date). -/
def nextDay (d : Date) : Date :=
  if d.day < daysInMonth d.year d.month then ⟨d.year, d.month, d.day + 1⟩
  else if d.month < 12 then ⟨d.year, d.month + 1, 1⟩
  else ⟨d.year + 1, 1, 1⟩

/-- date + timedelta(days=n), for a nonnegative n. -/
def addDays (d : Date) : Nat → Date
  | 0 => d
  | n + 1 => addDays (nextDay d) n

/-- Python date comparison a < b: lexicographic on (year, month, day). -/
def dateLtB (a b : Date) : Bool :=
  decide (a.year < b.year) ||
    (decide (a.year = b.year) &&
      (decide (a.month < b.month) ||
        (decide (a.month = b.month) && decide (a.day < b.day))))

/-- Python date comparison a <= b. -/
def dateLeB (a b : Date) : Bool :=
  !dateLtB b a

/-- Zero-padded two-digit decimal rendering (strftime %d, %m). -/
def pad2 (n : Nat) : String :=
  if n < 10 then "0" ++ Nat.repr n else Nat.repr n

/-- Zero-padded four-digit decimal rendering (strftime %Y). -/
def pad4 (n : Nat) : String :=
  if n < 10 then "000" ++ Nat.repr n
  else if n < 100 then "00" ++ Nat.repr n
  else if n < 1000 then "0" ++ Nat.repr n
  else Nat.repr n

/-- strftime of a date with the fixed format used by the program. -/
def pyFormatDate (d : Date) : String :=
  pad2 d.day ++ "." ++ pad2 d.month ++ "." ++ pad4 d.year

/-- Characters stripped by Python str.strip with no argument: the
Unicode whitespace characters (ASCII whitespace and controls 0x1c-0x1f,
plus the non-ASCII space characters recognised by str.isspace). -/
def pyIsSpace (c : Char) : Bool :=
  let n := c.toNat
  n == 32 || (decide (9 ≤ n) && decide (n ≤ 13)) ||
    (decide (28 ≤ n) && decide (n ≤ 31)) ||
    n == 133 || n == 160 || n == 5760 ||
    (decide (8192 ≤ n) && decide (n ≤ 8202)) ||
    n == 8232 || n == 8233 || n == 8239 || n == 8287 || n == 12288

/-- Python str.strip(): remove leading and trailing whitespace. -/
def pyStrip (s : String) : String :=
  String.mk (((s.data.dropWhile pyIsSpace).reverse.dropWhile pyIsSpace).reverse)

/-- The code-point intervals of every character accepted by Python
str.isdigit: the characters whose Unicode Numeric_Type is Decimal or
Digit.  The table is the complete enumeration for Unicode 14.0.0, the
character database of the CPython 3.11 runtime, produced by evaluating
str.isdigit at every code point. -/
def isdigitRanges : List (Nat × Nat) := [
    (48, 57), (178, 179), (185, 185), (1632, 1641), (1776, 1785), (1984, 1993),
    (2406, 2415), (2534, 2543), (2662, 2671), (2790, 2799), (2918, 2927), (3046, 3055),
    (3174, 3183), (3302, 3311), (3430, 3439), (3558, 3567), (3664, 3673), (3792, 3801),
    (3872, 3881), (4160, 4169), (4240, 4249), (4969, 4977), (6112, 6121), (6160, 6169),
    (6470, 6479), (6608, 6618), (6784, 6793), (6800, 6809), (6992, 7001), (7088, 7097),
    (7232, 7241), (7248, 7257), (8304, 8304), (8308, 8313), (8320, 8329), (9312, 9320),
    (9332, 9340), (9352, 9360), (9450, 9450), (9461, 9469), (9471, 9471), (10102, 10110),
    (10112, 10120), (10122, 10130), (42528, 42537), (43216, 43225), (43264, 43273), (43472, 43481),
    (43504, 43513), (43600, 43609), (44016, 44025), (65296, 65305), (66720, 66729), (68160, 68163),
    (68912, 68921), (69216, 69224), (69714, 69722), (69734, 69743), (69872, 69881), (69942, 69951),
    (70096, 70105), (70384, 70393), (70736, 70745), (70864, 70873), (71248, 71257), (71360, 71369),
    (71472, 71481), (71904, 71913), (72016, 72025), (72784, 72793), (73040, 73049), (73120, 73129),
    (92768, 92777), (92864, 92873), (93008, 93017), (120782, 120831), (123200, 123209), (123632, 123641),
    (125264, 125273), (127232, 127242), (130032, 130041)
]

/-- Python str.isdigit on one character. -/
def pyIsDigit (c : Char) : Bool :=
  isdigitRanges.any (fun p => decide (p.1 ≤ c.toNat) && decide (c.toNat ≤ p.2))

/-- The code-point intervals of the Unicode decimal digits (category
Nd, Numeric_Type Decimal) under Unicode 14.0.0: exactly the characters
matched by the regex class backslash-d of the re module on text
patterns, and accepted digit-wise by int().  Each interval starts at
the digit of value 0 and ascends, so the decimal value of a character
is its offset from the interval start (the complete enumeration,
produced from the CPython 3.11 runtime). -/
def decimalRanges : List (Nat × Nat) := [
    (48, 57), (1632, 1641), (1776, 1785), (1984, 1993), (2406, 2415), (2534, 2543),
    (2662, 2671), (2790, 2799), (2918, 2927), (3046, 3055), (3174, 3183), (3302, 3311),
    (3430, 3439), (3558, 3567), (3664, 3673), (3792, 3801), (3872, 3881), (4160, 4169),
    (4240, 4249), (6112, 6121), (6160, 6169), (6470, 6479), (6608, 6617), (6784, 6793),
    (6800, 6809), (6992, 7001), (7088, 7097), (7232, 7241), (7248, 7257), (42528, 42537),
    (43216, 43225), (43264, 43273), (43472, 43481), (43504, 43513), (43600, 43609), (44016, 44025),
    (65296, 65305), (66720, 66729), (68912, 68921), (69734, 69743), (69872, 69881), (69942, 69951),
    (70096, 70105), (70384, 70393), (70736, 70745), (70864, 70873), (71248, 71257), (71360, 71369),
    (71472, 71481), (71904, 71913), (72016, 72025), (72784, 72793), (73040, 73049), (73120, 73129),
    (92768, 92777), (92864, 92873), (93008, 93017), (120782, 120791), (120792, 120801), (120802, 120811),
    (120812, 120821), (120822, 120831), (123200, 123209), (123632, 123641), (125264, 125273), (130032, 130041)
]

/-- Membership in the Unicode decimal digits. -/
def pyIsDecimal (c : Char) : Bool :=
  decimalRanges.any (fun p => decide (p.1 ≤ c.toNat) && decide (c.toNat ≤ p.2))

/-- The decimal value of a Unicode decimal digit character, as used by
int() (0 for characters off the table). -/
def charDecVal (c : Char) : Nat :=
  match decimalRanges.find? (fun p => decide (p.1 ≤ c.toNat) && decide (c.toNat ≤ p.2)) with
  | some p => c.toNat - p.1
  | none => 0

/-- Python str.isdigit on a whole string: nonempty and all characters
digits. -/
def pyStrIsDigit (s : String) : Bool :=
  !s.data.isEmpty && s.data.all pyIsDigit

/-- Phone.__init__: strip the input, require isdigit and length 10,
store the stripped value; ValueError becomes the error branch. -/
def phone_init (s : String) : Except String String :=
  if !pyStrIsDigit (pyStrip s) || !((pyStrip s).data.length == 10) then
    .error "Номер має містити 10 цифр"
  else
    .ok (pyStrip s)

/-- Numeric value of a list of decimal digit characters (most
significant first), as computed by int() on the matched groups inside
strptime: each character contributes its Unicode decimal value. -/
def natOfDigits (l : List Char) : Nat :=
  l.foldl (fun a c => 10 * a + charDecVal c) 0

/-- Split a character list on the dot character; models how the regex
compiled by strptime for the format %d.%m.%Y carves the input into a
day group, a month group and a year group separated by literal dots. -/
def splitDots : List Char → List (List Char)
  | [] => [[]]
  | c :: cs =>
    if c = '.' then [] :: splitDots cs
    else
      match splitDots cs with
      | [] => [[c]]
      | g :: gs => (c :: g) :: gs

/-- The day group of the strptime regex for %d, whose pattern is the
alternation 3[01] or [12] backslash-d or 0[1-9] or [1-9]: the literal
digits and the bracket classes are ASCII (codes 48-57), while the
backslash-d slot after a leading ASCII 1 or 2 admits any Unicode
decimal digit.  A group matches only as a whole, since the next
pattern character is the literal dot, which no digit class contains. -/
def dayGroupOK (ds : List Char) : Bool :=
  match ds with
  | [c] => decide (49 ≤ c.toNat ∧ c.toNat ≤ 57)
  | [c1, c2] =>
    decide (c1.toNat = 51 ∧ (c2.toNat = 48 ∨ c2.toNat = 49)) ||
    (decide (c1.toNat = 49 ∨ c1.toNat = 50) && pyIsDecimal c2) ||
    decide (c1.toNat = 48 ∧ 49 ≤ c2.toNat ∧ c2.toNat ≤ 57)
  | _ => false

/-- The month group of the strptime regex for %m, whose pattern is the
alternation 1[0-2] or 0[1-9] or [1-9]: every character class here is
ASCII, so the month group admits ASCII digits only. -/
def monthGroupOK (ms : List Char) : Bool :=
  match ms with
  | [c] => decide (49 ≤ c.toNat ∧ c.toNat ≤ 57)
  | [c1, c2] =>
    decide ((c1.toNat = 49 ∧ 48 ≤ c2.toNat ∧ c2.toNat ≤ 50) ∨
      (c1.toNat = 48 ∧ 49 ≤ c2.toNat ∧ c2.toNat ≤ 57))
  | _ => false

/-- datetime.strptime with format %d.%m.%Y followed by .date(), on a
character list.  The compiled regex is the day pattern, a literal dot,
the month pattern, a literal dot, and four backslash-d characters for
%Y (any Unicode decimal digits), matched against the whole string;
int() of each matched group then uses the Unicode decimal values, and
the date constructor requires year at least 1 and a day that exists in
the month.  A regex failure and a date failure raise the same
ValueError, modelled by the single none branch. -/
def parseBirthday (l : List Char) : Option Date :=
  match splitDots l with
  | [ds, ms, ys] =>
    if dayGroupOK ds = true ∧ monthGroupOK ms = true ∧
       ys.length = 4 ∧ ys.all pyIsDecimal = true ∧
       isValidDate ⟨natOfDigits ys, natOfDigits ms, natOfDigits ds⟩ then
      some ⟨natOfDigits ys, natOfDigits ms, natOfDigits ds⟩
    else
      none
  | _ => none

/-- A Birthday.  The source stores the strftime rendering of the parsed
date and reparses it on demand through the date_value property; since
strftime and strptime invert each other on valid dates, the Birthday is
modelled by the parsed date, with the stored string recovered by
Birthday.value. -/
structure Birthday where
  date : Date
deriving DecidableEq, Repr

/-- The stored normalized string of a Birthday (self.value in the
source). -/
def Birthday.value (b : Birthday) : String :=
  pyFormatDate b.date

/-- The structured date accessor (the date_value property). -/
def Birthday.date_value (b : Birthday) : Date :=
  b.date

/-- Birthday.__init__: strip, parse with strptime %d.%m.%Y, store the
normalized rendering of the parsed date. -/
def birthday_init (s : String) : Except String Birthday :=
  match parseBirthday (pyStrip s).data with
  | some d => .ok ⟨d⟩
  | none => .error "Невірний формат дати, має бути: DD.MM.YYYY"

example : phone_init " 1234567890 " = .ok "1234567890" := by rfl
example : phone_init "123456789" = .error "Номер має містити 10 цифр" := by rfl
example : birthday_init "29.02.2000" = .ok ⟨⟨2000, 2, 29⟩⟩ := by rfl
example : birthday_init "31.02.2020" = .error "Невірний формат дати, має бути: DD.MM.YYYY" := by rfl
example : birthday_init "1.2.2020" = .ok ⟨⟨2020, 2, 1⟩⟩ := by rfl
example : birthday_init "29.02.2001" = .error "Невірний формат дати, має бути: DD.MM.YYYY" := by rfl
example : phone_init "๑๑๑๑๑๑๑๑๑๑" = .ok "๑๑๑๑๑๑๑๑๑๑" := by rfl
example : phone_init "①①①①①①①①①①" = .ok "①①①①①①①①①①" := by rfl
example : birthday_init "01.02.２０２０" = .ok ⟨⟨2020, 2, 1⟩⟩ := by rfl
example : birthday_init "1٢.03.2020" = .ok ⟨⟨2020, 3, 12⟩⟩ := by rfl
example : birthday_init "٢.03.2020" = .error "Невірний формат дати, має бути: DD.MM.YYYY" := by rfl
example : birthday_init "２９.02.2000" = .error "Невірний формат дати, має бути: DD.MM.YYYY" := by rfl
example : birthday_init "01.０2.2020" = .error "Невірний формат дати, має бути: DD.MM.YYYY" := by rfl
example : birthday_init "2٥.01.2020" = .ok ⟨⟨2020, 1, 25⟩⟩ := by rfl
example : birthday_init "3٢.01.2020" = .error "Невірний формат дати, має бути: DD.MM.YYYY" := by rfl
example : birthday_init "00.01.2020" = .error "Невірний формат дати, має бути: DD.MM.YYYY" := by rfl
example : Birthday.value ⟨⟨2020, 2, 1⟩⟩ = "01.02.2020" := by decide

/-- A contact Record: one name, an ordered list of validated phone
values (a Phone object is identified with its stored string), and an
optional Birthday. -/
structure Record where
  name : String
  phones : List String
  birthday : Option Birthday
deriving DecidableEq, Repr

/-- Record.find_phone: first stored phone whose value equals the
argument, or None. -/
def find_phone (r : Record) (phone : String) : Option String :=
  r.phones.find? (fun p => p == phone)

/-- Replace the first occurrence of old in the list (the in-place
mutation p.value = ... of the Phone object returned by find_phone). -/
def replaceFirst : List String → String → String → List String
  | [], _, _ => []
  | x :: xs, old, nv => if x = old then nv :: xs else x :: replaceFirst xs old nv

/-- Record.edit_phone: look up the old phone; if absent raise, otherwise
validate the new phone and overwrite the found entry in place. -/
def edit_phone (r : Record) (old_phone new_phone : String) : Except String Record :=
  match find_phone r old_phone with
  | none => .error ("Old phone " ++ old_phone ++ " not found")
  | some _ =>
    match phone_init new_phone with
    | .error e => .error e
    | .ok nv => .ok ⟨r.name, replaceFirst r.phones old_phone nv, r.birthday⟩

/-- Record.__str__. -/
def record_str (r : Record) : String :=
  r.name ++ ", phones: " ++
    (if r.phones.isEmpty then "-" else String.intercalate " ; " r.phones) ++
    ", birthday: " ++
    (match r.birthday with
     | some b => b.value
     | none => "-")

/-- The AddressBook: records in the insertion order of the underlying
dict (values iteration order). -/
structure AddressBook where
  records : List Record
deriving DecidableEq, Repr

/-- AddressBook.__str__. -/
def addressBook_str (book : AddressBook) : String :=
  if book.records.isEmpty then "[]"
  else String.intercalate "\n" (book.records.map record_str)

/-- AddressBook._safe_birthday_for_year: bday.replace(year=year), with
date(year, 2, 28) substituted when the replacement raises (which, for a
valid stored birthday, happens exactly for Feb 29 in a non-leap year). -/
def safe_birthday_for_year (bday : Date) (year : Nat) : Date :=
  if isValidDate ⟨year, bday.month, bday.day⟩ then ⟨year, bday.month, bday.day⟩
  else ⟨year, 2, 28⟩

/-- The occurrence of the birthday measured against today: this year,
or next year if the occurrence this year is already past. -/
def occurrenceFor (bday today : Date) : Date :=
  let b := safe_birthday_for_year bday today.year
  if dateLtB b today then safe_birthday_for_year bday (today.year + 1) else b

/-- The congratulation date: the occurrence shifted off a Saturday
(weekday 5) by two days or off a Sunday (weekday 6) by one day. -/
def congratOf (occ : Date) : Date :=
  if weekday occ = 5 then addDays occ 2
  else if weekday occ = 6 then addDays occ 1
  else occ

/-- An entry of the upcoming list before rendering: name and the
congratulation date. -/
structure CEntry where
  name : String
  congrat : Date
deriving DecidableEq, Repr

/-- A rendered entry of the returned list: the dict with keys name and
congratulation_date built in get_upcoming_birthdays. -/
structure Entry where
  name : String
  congratulation_date : String
deriving DecidableEq, Repr

/-- The loop body of get_upcoming_birthdays for one record: skip a
record without a birthday, compute the occurrence and the congratulation
date, and keep the record when 0 <= delta <= days. -/
def processRecord (today : Date) (days : Int) (r : Record) : Option CEntry :=
  match r.birthday with
  | none => none
  | some b =>
    let occ := occurrenceFor b.date_value today
    let congrat := congratOf occ
    let delta : Int := (toordinal congrat : Int) - (toordinal today : Int)
    if 0 ≤ delta ∧ delta ≤ days then some ⟨r.name, congrat⟩ else none

/-- The upcoming list accumulated by the loop, in record order. -/
def upcomingUnsorted (book : AddressBook) (today : Date) (days : Int) : List CEntry :=
  book.records.filterMap (processRecord today days)

/-- The sort key order of upcoming.sort: ascending by congratulation
date (the source formats the date and reparses it as the key, which is
the same order because strftime and strptime invert each other on valid
dates). -/
def entryLe (a b : CEntry) : Prop :=
  dateLeB a.congrat b.congrat = true

instance : DecidableRel entryLe := fun a b => by
  unfold entryLe; infer_instance

/-- Render an entry to the returned dict. -/
def renderEntry (e : CEntry) : Entry :=
  ⟨e.name, pyFormatDate e.congrat⟩

/-- AddressBook.get_upcoming_birthdays: collect, sort stably ascending
by congratulation date (list.sort is a stable sort; modelled by
insertion sort, which is also stable, hence extensionally equal), and
return the rendered entries.  The source renders each date before the
sort and the sort reparses it; rendering after the sort yields the same
list. -/
def get_upcoming_birthdays (book : AddressBook) (today : Date) (days : Int) : List Entry :=
  (List.insertionSort entryLe (upcomingUnsorted book today days)).map renderEntry

/-- The file system seen by the persistence layer: what pickle data a
path holds, decoded as the AddressBook value it deserializes to. -/
def FileSystem : Type := String → Option AddressBook

/-- save_data: pickle.dump of the whole book to the file, overwriting
it.  Pickling is modelled as storing the book value itself, which is
what a faithful round-trip of the object graph amounts to. -/
def save_data (book : AddressBook) (filename : String) (fs : FileSystem) : FileSystem :=
  fun p => if p = filename then some book else fs p

/-- load_data: pickle.load from the file, or a fresh empty AddressBook
when the file does not exist. -/
def load_data (filename : String) (fs : FileSystem) : AddressBook :=
  match fs filename with
  | some b => b
  | none => ⟨[]⟩

example : toordinal ⟨1, 1, 1⟩ = 1 := by decide
example : toordinal ⟨2023, 2, 28⟩ = 738579 := by decide
example : weekday ⟨2025, 1, 6⟩ = 0 := by decide
example : weekday ⟨2025, 1, 4⟩ = 5 := by decide
example : weekday ⟨2023, 2, 28⟩ = 1 := by decide
example : pyFormatDate ⟨2023, 2, 28⟩ = "28.02.2023" := by decide

example : get_upcoming_birthdays ⟨[⟨"Olena", [], some ⟨⟨2000, 2, 29⟩⟩⟩]⟩ ⟨2023, 2, 28⟩ 7 =
    [⟨"Olena", "28.02.2023"⟩] := by rfl

example : get_upcoming_birthdays
    ⟨[⟨"A", [], some ⟨⟨1990, 1, 3⟩⟩⟩, ⟨"B", [], some ⟨⟨1990, 1, 1⟩⟩⟩]⟩ ⟨2024, 12, 31⟩ 7 =
    [⟨"B", "01.01.2025"⟩, ⟨"A", "03.01.2025"⟩] := by rfl

example : get_upcoming_birthdays ⟨[⟨"S", [], some ⟨⟨1992, 1, 4⟩⟩⟩]⟩ ⟨2025, 1, 1⟩ 7 =
    [⟨"S", "06.01.2025"⟩] := by rfl

example : get_upcoming_birthdays ⟨[⟨"S", [], some ⟨⟨1992, 1, 4⟩⟩⟩]⟩ ⟨2025, 1, 1⟩ 4 = [] := by rfl

/-! ### Supporting lemmas: date order -/

/-- The Boolean strict date order unfolded to a proposition. -/
lemma dateLtB_iff (a b : Date) :
    dateLtB a b = true ↔
      (a.year < b.year ∨ (a.year = b.year ∧
        (a.month < b.month ∨ (a.month = b.month ∧ a.day < b.day)))) := by
  simp [dateLtB, Bool.or_eq_true, Bool.and_eq_true, decide_eq_true_eq]

/-- The Boolean strict date order refuted, as a proposition. -/
lemma dateLtB_false_iff (a b : Date) :
    dateLtB a b = false ↔
      ¬(a.year < b.year ∨ (a.year = b.year ∧
        (a.month < b.month ∨ (a.month = b.month ∧ a.day < b.day)))) := by
  rw [← Bool.not_eq_true, dateLtB_iff]

/-- The non-strict order as the refutation of the reversed strict one. -/
lemma dateLeB_iff_not_lt (a b : Date) : dateLeB a b = true ↔ dateLtB b a = false := by
  unfold dateLeB
  cases dateLtB b a <;> simp

lemma entryLe_total (a b : CEntry) : entryLe a b ∨ entryLe b a := by
  unfold entryLe
  rw [dateLeB_iff_not_lt, dateLeB_iff_not_lt, dateLtB_false_iff, dateLtB_false_iff]
  omega

lemma entryLe_trans (a b c : CEntry) (hab : entryLe a b) (hbc : entryLe b c) : entryLe a c := by
  unfold entryLe at *
  rw [dateLeB_iff_not_lt, dateLtB_false_iff] at *
  omega

instance : IsTotal CEntry entryLe := ⟨entryLe_total⟩

instance : IsTrans CEntry entryLe := ⟨entryLe_trans⟩

/-! ### Supporting lemmas: stability of the sort -/

lemma not_entryLe_congr_ne {x y : CEntry} (h : ¬ entryLe x y) : y.congrat ≠ x.congrat := by
  unfold entryLe at h
  rw [dateLeB_iff_not_lt] at h
  intro e
  have hlt : dateLtB y.congrat x.congrat = true := by
    cases hc : dateLtB y.congrat x.congrat
    · exact absurd hc h
    · rfl
  rw [e, dateLtB_iff] at hlt
  omega

lemma filter_orderedInsert_congr_eq (d : Date) (x : CEntry) (l : List CEntry)
    (hx : x.congrat = d) :
    (List.orderedInsert entryLe x l).filter (fun e => e.congrat == d) =
      x :: l.filter (fun e => e.congrat == d) := by
  induction l with
  | nil => simp [hx]
  | cons y ys ih =>
    by_cases h : entryLe x y
    · simp [List.orderedInsert, if_pos h, List.filter_cons, hx]
    · have hy : ¬ (y.congrat = d) := by
        rw [← hx]; exact not_entryLe_congr_ne h
      simp only [List.orderedInsert, if_neg h, List.filter_cons]
      simp only [beq_iff_eq, hy, if_false, ih]

lemma filter_orderedInsert_congr_ne (d : Date) (x : CEntry) (l : List CEntry)
    (hx : x.congrat ≠ d) :
    (List.orderedInsert entryLe x l).filter (fun e => e.congrat == d) =
      l.filter (fun e => e.congrat == d) := by
  induction l with
  | nil => simp [hx]
  | cons y ys ih =>
    by_cases h : entryLe x y
    · simp [List.orderedInsert, if_pos h, List.filter_cons, hx]
    · simp only [List.orderedInsert, if_neg h, List.filter_cons, ih]

/-- Stability of the modelled sort: the entries carrying any one given
congratulation date appear in the sorted output exactly in their
original relative order. -/
lemma filter_insertionSort_congr (d : Date) (l : List CEntry) :
    (List.insertionSort entryLe l).filter (fun e => e.congrat == d) =
      l.filter (fun e => e.congrat == d) := by
  induction l with
  | nil => rfl
  | cons x xs ih =>
    by_cases hx : x.congrat = d
    · rw [List.insertionSort, filter_orderedInsert_congr_eq d x _ hx, ih, List.filter_cons]
      simp [hx]
    · rw [List.insertionSort, filter_orderedInsert_congr_ne d x _ hx, ih, List.filter_cons]
      simp [hx]

/-! ### Supporting lemmas: splitting on dots -/

/-- Rejoin dot-separated groups. -/
def joinDots : List (List Char) → List Char
  | [] => []
  | [g] => g
  | g :: gs => g ++ '.' :: joinDots gs

lemma splitDots_ne_nil (l : List Char) : splitDots l ≠ [] := by
  cases l with
  | nil => simp [splitDots]
  | cons c cs =>
    unfold splitDots
    by_cases h : c = '.'
    · simp [h]
    · simp only [if_neg h]
      cases splitDots cs <;> simp

/-- No group produced by splitDots contains a dot. -/
lemma splitDots_noDot (l : List Char) : ∀ g ∈ splitDots l, '.' ∉ g := by
  induction l with
  | nil => intro g hg; simp [splitDots] at hg; simp [hg]
  | cons c cs ih =>
    intro g hg
    unfold splitDots at hg
    by_cases h : c = '.'
    · rw [if_pos h] at hg
      rcases List.mem_cons.mp hg with h1 | h1
      · simp [h1]
      · exact ih g h1
    · rw [if_neg h] at hg
      cases hcs : splitDots cs with
      | nil => exact absurd hcs (splitDots_ne_nil cs)
      | cons g0 gs =>
        rw [hcs] at hg
        rcases List.mem_cons.mp hg with h1 | h1
        · subst h1
          intro hm
          rcases List.mem_cons.mp hm with h2 | h2
          · exact h h2.symm
          · exact ih g0 (hcs ▸ List.mem_cons_self g0 gs) h2
        · exact ih g (hcs ▸ List.mem_cons_of_mem g0 h1)

/-- Rejoining the groups of splitDots recovers the input. -/
lemma joinDots_splitDots (l : List Char) : joinDots (splitDots l) = l := by
  induction l with
  | nil => rfl
  | cons c cs ih =>
    unfold splitDots
    by_cases h : c = '.'
    · rw [if_pos h]
      cases hcs : splitDots cs with
      | nil => exact absurd hcs (splitDots_ne_nil cs)
      | cons g gs =>
        rw [hcs] at ih
        subst h
        show joinDots ([] :: g :: gs) = '.' :: cs
        rw [show joinDots ([] :: g :: gs) = [] ++ '.' :: joinDots (g :: gs) from rfl]
        rw [ih]
        rfl
    · rw [if_neg h]
      cases hcs : splitDots cs with
      | nil => exact absurd hcs (splitDots_ne_nil cs)
      | cons g gs =>
        rw [hcs] at ih
        cases gs with
        | nil =>
          show joinDots [c :: g] = c :: cs
          show c :: g = c :: cs
          rw [show g = joinDots [g] from rfl, ih]
        | cons g1 gs1 =>
          show (c :: g) ++ '.' :: joinDots (g1 :: gs1) = c :: cs
          rw [List.cons_append]
          rw [show g ++ '.' :: joinDots (g1 :: gs1) = joinDots (g :: g1 :: gs1) from rfl, ih]

/-- splitDots on a dot-free list yields the single group. -/
lemma splitDots_of_noDot (l : List Char) (h : '.' ∉ l) : splitDots l = [l] := by
  induction l with
  | nil => rfl
  | cons c cs ih =>
    have hc : ¬ c = '.' := fun e => h (e ▸ List.mem_cons_self c cs)
    have hcs : '.' ∉ cs := fun hm => h (List.mem_cons_of_mem c hm)
    unfold splitDots
    rw [if_neg hc, ih hcs]

/-- splitDots peels a leading dot-free group followed by a dot. -/
lemma splitDots_append (a r : List Char) (h : '.' ∉ a) :
    splitDots (a ++ '.' :: r) = a :: splitDots r := by
  induction a with
  | nil => simp [splitDots]
  | cons c cs ih =>
    have hc : ¬ c = '.' := fun e => h (e ▸ List.mem_cons_self c cs)
    have hcs : '.' ∉ cs := fun hm => h (List.mem_cons_of_mem c hm)
    rw [List.cons_append]
    rw [splitDots]
    rw [if_neg hc, ih hcs]

/-- A list of Unicode decimal digit characters contains no dot. -/
lemma noDot_of_all_decimal {l : List Char} (h : l.all pyIsDecimal = true) : '.' ∉ l := by
  intro hm
  have h2 := List.all_eq_true.mp h '.' hm
  exact absurd h2 (by decide)

/-- A day group matched by the strptime day pattern contains no dot. -/
lemma noDot_of_dayGroup {ds : List Char} (h : dayGroupOK ds = true) : '.' ∉ ds := by
  intro hm
  have h46 : ('.' : Char).toNat = 46 := by decide
  cases ds with
  | nil => simp at hm
  | cons c cs =>
    cases cs with
    | nil =>
      have hc : ('.' : Char) = c := by simpa using hm
      simp only [dayGroupOK, decide_eq_true_eq] at h
      rw [← hc] at h
      omega
    | cons c2 cs2 =>
      cases cs2 with
      | nil =>
        simp only [dayGroupOK, Bool.or_eq_true, Bool.and_eq_true, decide_eq_true_eq] at h
        rcases List.mem_cons.mp hm with h1 | h1
        · rw [← h1] at h
          rcases h with h | h
          · rcases h with ⟨hh, _⟩ | ⟨hh, _⟩
            · omega
            · rcases hh with hh | hh <;> omega
          · rcases h with ⟨hh, _⟩
            omega
        · have hc2 : ('.' : Char) = c2 := by simpa using h1
          rw [← hc2] at h
          rcases h with h | h
          · rcases h with ⟨_, hh⟩ | ⟨_, hh⟩
            · rcases hh with hh | hh <;> omega
            · exact absurd hh (by decide)
          · rcases h with ⟨_, hh, _⟩
            omega
      | cons c3 cs3 => simp [dayGroupOK] at h

/-- A month group matched by the strptime month pattern contains no
dot. -/
lemma noDot_of_monthGroup {ms : List Char} (h : monthGroupOK ms = true) : '.' ∉ ms := by
  intro hm
  have h46 : ('.' : Char).toNat = 46 := by decide
  cases ms with
  | nil => simp at hm
  | cons c cs =>
    cases cs with
    | nil =>
      have hc : ('.' : Char) = c := by simpa using hm
      simp only [monthGroupOK, decide_eq_true_eq] at h
      rw [← hc] at h
      omega
    | cons c2 cs2 =>
      cases cs2 with
      | nil =>
        simp only [monthGroupOK, decide_eq_true_eq] at h
        rcases List.mem_cons.mp hm with h1 | h1
        · rw [← h1] at h
          rcases h with ⟨hh, _⟩ | ⟨hh, _⟩ <;> omega
        · have hc2 : ('.' : Char) = c2 := by simpa using h1
          rw [← hc2] at h
          rcases h with ⟨_, hh, _⟩ | ⟨_, hh, _⟩ <;> omega
      | cons c3 cs3 => simp [monthGroupOK] at h

/-- Full characterization of the modelled strptime parser: it succeeds
exactly on inputs that decompose as a day group, a dot, a month group,
a dot and a year group, with the character classes of the format regex
and the validity check of the date constructor. -/
theorem parseBirthday_eq_some_iff (l : List Char) (d : Date) :
    parseBirthday l = some d ↔
      ∃ ds ms ys : List Char,
        l = ds ++ '.' :: (ms ++ '.' :: ys) ∧
        dayGroupOK ds = true ∧ monthGroupOK ms = true ∧
        ys.length = 4 ∧ ys.all pyIsDecimal = true ∧
        isValidDate ⟨natOfDigits ys, natOfDigits ms, natOfDigits ds⟩ ∧
        d = ⟨natOfDigits ys, natOfDigits ms, natOfDigits ds⟩ := by
  constructor
  · intro h
    unfold parseBirthday at h
    split at h
    case h_1 ds ms ys heq =>
      split at h
      case isTrue hc =>
        refine ⟨ds, ms, ys, ?_, hc.1, hc.2.1, hc.2.2.1, hc.2.2.2.1, hc.2.2.2.2, ?_⟩
        · rw [← joinDots_splitDots l, heq]
          rfl
        · exact (Option.some.inj h).symm
      case isFalse => exact absurd h (by simp)
    case h_2 => exact absurd h (by simp)
  · rintro ⟨ds, ms, ys, rfl, h1, h2, h3, h4, h5, rfl⟩
    have e1 : splitDots (ds ++ '.' :: (ms ++ '.' :: ys)) = ds :: ms :: [ys] := by
      rw [splitDots_append ds _ (noDot_of_dayGroup h1),
        splitDots_append ms _ (noDot_of_monthGroup h2),
        splitDots_of_noDot ys (noDot_of_all_decimal h4)]
    unfold parseBirthday
    rw [e1]
    exact if_pos ⟨h1, h2, h3, h4, h5⟩

/-! ### Supporting lemmas: phone list editing -/

/-- replaceFirst rewrites exactly the first occurrence, in place. -/
lemma replaceFirst_spec (l : List String) (old nv : String) (h : old ∈ l) :
    ∃ i, l.get? i = some old ∧ (∀ j, j < i → l.get? j ≠ some old) ∧
      replaceFirst l old nv = l.set i nv := by
  induction l with
  | nil => simp at h
  | cons x xs ih =>
    by_cases hx : x = old
    · refine ⟨0, by simp [hx], ?_, by simp [replaceFirst, hx]⟩
      intro j hj
      omega
    · have h' : old ∈ xs := by
        rcases List.mem_cons.mp h with h1 | h1
        · exact absurd h1.symm hx
        · exact h1
      obtain ⟨i, h1, h2, h3⟩ := ih h'
      refine ⟨i + 1, by simpa using h1, ?_, ?_⟩
      · intro j hj
        cases j with
        | zero => simp [hx]
        | succ j' =>
          simpa using h2 j' (by omega)
      · simp [replaceFirst, hx, h3]

/-- A member is found by find? with the equality test, and the found
element is that member. -/
lemma find?_beq_of_mem (l : List String) (v : String) (h : v ∈ l) :
    l.find? (fun p => p == v) = some v := by
  induction l with
  | nil => simp at h
  | cons x xs ih =>
    by_cases hx : x = v
    · simp [List.find?, hx]
    · rw [List.find?]
      rw [show ((x == v) : Bool) = false by simp [hx]]
      rcases List.mem_cons.mp h with h1 | h1
      · exact absurd h1.symm hx
      · exact ih h1

/-- find? with the equality test fails exactly off-membership. -/
lemma find?_beq_eq_none (l : List String) (v : String) (h : v ∉ l) :
    l.find? (fun p => p == v) = none := by
  rw [List.find?_eq_none]
  intro x hx
  simp only [beq_iff_eq]
  intro e
  exact h (e ▸ hx)

/-- Replacing the unique occurrence of old with a different value
removes old from the list. -/
lemma not_mem_replaceFirst (l : List String) (old nv : String)
    (hcount : l.count old = 1) (hne : nv ≠ old) : old ∉ replaceFirst l old nv := by
  induction l with
  | nil => simp [replaceFirst]
  | cons x xs ih =>
    by_cases hx : x = old
    · have hxs : old ∉ xs := by
        rw [List.count_cons, if_pos (show ((x == old) = true) by simp [hx])] at hcount
        exact List.count_eq_zero.mp (by omega)
      simp only [replaceFirst, if_pos hx]
      intro hm
      rcases List.mem_cons.mp hm with h1 | h1
      · exact hne h1.symm
      · exact hxs h1
    · have hcount' : xs.count old = 1 := by
        rw [List.count_cons, if_neg (show ¬((x == old) = true) by simp [hx])] at hcount
        omega
      simp only [replaceFirst, if_neg hx]
      intro hm
      rcases List.mem_cons.mp hm with h1 | h1
      · exact hx h1.symm
      · exact ih hcount' h1

/-- The replacement value is a member of the edited list. -/
lemma mem_replaceFirst (l : List String) (old nv : String) (h : old ∈ l) :
    nv ∈ replaceFirst l old nv := by
  induction l with
  | nil => simp at h
  | cons x xs ih =>
    by_cases hx : x = old
    · simp [replaceFirst, hx]
    · have h' : old ∈ xs := by
        rcases List.mem_cons.mp h with h1 | h1
        · exact absurd h1.symm hx
        · exact h1
      simp only [replaceFirst, if_neg hx]
      exact List.mem_cons_of_mem x (ih h')

/-! ### Supporting lemmas: the upcoming-birthday pipeline -/

/-- The congratulation date computed for a birthday against a reference
date. -/
def congratulationDateFor (bday today : Date) : Date :=
  congratOf (occurrenceFor bday today)

/-- The whole-day distance from today to the congratulation date. -/
def deltaFor (bday today : Date) : Int :=
  (toordinal (congratulationDateFor bday today) : Int) - (toordinal today : Int)

lemma safe_birthday_year (bday : Date) (y : Nat) :
    (safe_birthday_for_year bday y).year = y := by
  unfold safe_birthday_for_year
  split <;> rfl

lemma dateLtB_false_of_year_gt {a b : Date} (h : b.year < a.year) : dateLtB a b = false := by
  rw [dateLtB_false_iff]
  omega

/-- The occurrence picked by the algorithm is never strictly before
today. -/
lemma occurrence_not_before_today (bday today : Date) :
    dateLtB (occurrenceFor bday today) today = false := by
  unfold occurrenceFor
  by_cases h : dateLtB (safe_birthday_for_year bday today.year) today = true
  · rw [if_pos h]
    apply dateLtB_false_of_year_gt
    rw [safe_birthday_year]
    omega
  · rw [if_neg h]
    exact Bool.eq_false_iff.mpr h

lemma processRecord_none (today : Date) (days : Int) (r : Record)
    (h : r.birthday = none) : processRecord today days r = none := by
  simp [processRecord, h]

lemma processRecord_some (today : Date) (days : Int) (r : Record) (b : Birthday)
    (h : r.birthday = some b) :
    processRecord today days r =
      if 0 ≤ deltaFor b.date today ∧ deltaFor b.date today ≤ days
      then some ⟨r.name, congratulationDateFor b.date today⟩ else none := by
  simp [processRecord, h, deltaFor, congratulationDateFor, Birthday.date_value]

/-- Membership in the returned list, characterized record by record. -/
lemma mem_get_upcoming_iff (book : AddressBook) (today : Date) (days : Int) (e : Entry) :
    e ∈ get_upcoming_birthdays book today days ↔
      ∃ r ∈ book.records, ∃ b, r.birthday = some b ∧
        0 ≤ deltaFor b.date today ∧ deltaFor b.date today ≤ days ∧
        e = ⟨r.name, pyFormatDate (congratulationDateFor b.date today)⟩ := by
  unfold get_upcoming_birthdays upcomingUnsorted
  simp only [List.mem_map, List.mem_insertionSort, List.mem_filterMap]
  constructor
  · rintro ⟨ce, ⟨r, hr, hpr⟩, rfl⟩
    cases hb : r.birthday with
    | none =>
      rw [processRecord_none _ _ _ hb] at hpr
      cases hpr
    | some b =>
      rw [processRecord_some today days r b hb] at hpr
      by_cases hc : 0 ≤ deltaFor b.date today ∧ deltaFor b.date today ≤ days
      · rw [if_pos hc] at hpr
        have hce := (Option.some.inj hpr).symm
        subst hce
        exact ⟨r, hr, b, hb, hc.1, hc.2, rfl⟩
      · rw [if_neg hc] at hpr
        cases hpr
  · rintro ⟨r, hr, b, hb, h1, h2, rfl⟩
    refine ⟨⟨r.name, congratulationDateFor b.date today⟩, ⟨r, hr, ?_⟩, rfl⟩
    rw [processRecord_some today days r b hb, if_pos ⟨h1, h2⟩]

/-- With a negative window, no record qualifies. -/
lemma get_upcoming_neg (book : AddressBook) (today : Date) {days : Int} (h : days < 0) :
    get_upcoming_birthdays book today days = [] := by
  unfold get_upcoming_birthdays upcomingUnsorted
  have he : book.records.filterMap (processRecord today days) = [] := by
    rw [List.filterMap_eq_nil_iff]
    intro r hr
    cases hb : r.birthday with
    | none => exact processRecord_none _ _ _ hb
    | some b =>
      rw [processRecord_some today days r b hb, if_neg]
      rintro ⟨h1, h2⟩
      omega
  rw [he]
  rfl

/-! ### Claims -/

/-- C1: in get_upcoming_birthdays, for a birthday of Feb 29 the
occurrence in a non-leap target year substitutes Feb 28 of that year
(the substitution is a total function, so nothing is raised); in the
concrete scenario of the spec, birthday 29.02.2000 with today
28.02.2023 and a 7-day window, the record is included with
congratulation date 28.02.2023. -/
theorem upcoming_feb29_substitutes_feb28 (bday : Date) (y : Nat)
    (hm : bday.month = 2) (hd : bday.day = 29) (hl : isLeap y = false) :
    safe_birthday_for_year bday y = ⟨y, 2, 28⟩ ∧
    get_upcoming_birthdays ⟨[⟨"Olena", [], some ⟨⟨2000, 2, 29⟩⟩⟩]⟩ ⟨2023, 2, 28⟩ 7 =
      [⟨"Olena", "28.02.2023"⟩] := by
  constructor
  · have hnv : ¬ isValidDate ⟨y, bday.month, bday.day⟩ := by
      rw [hm, hd]
      intro hv
      unfold isValidDate at hv
      have h28 : daysInMonth y 2 = 28 := by simp [daysInMonth, hl]
      rcases hv with ⟨_, _, _, _, h5⟩
      simp only [h28] at h5
      omega
    unfold safe_birthday_for_year
    rw [if_neg hnv]
  · rfl

/-- C1 witness at the concrete instance given in the spec. -/
theorem upcoming_feb29_substitutes_feb28_witness :
    safe_birthday_for_year ⟨2000, 2, 29⟩ 2023 = ⟨2023, 2, 28⟩ ∧
    get_upcoming_birthdays ⟨[⟨"Olena", [], some ⟨⟨2000, 2, 29⟩⟩⟩]⟩ ⟨2023, 2, 28⟩ 7 =
      [⟨"Olena", "28.02.2023"⟩] :=
  upcoming_feb29_substitutes_feb28 ⟨2000, 2, 29⟩ 2023 rfl rfl (by decide)

/-- C2: the occurrence is recomputed in year today.year + 1, with the
same leap-safe substitution, exactly when the occurrence this year is
strictly before today; otherwise the current-year occurrence is kept;
consequently the chosen occurrence is never strictly before today. -/
theorem occurrence_recomputed_next_year (bday today : Date) :
    (dateLtB (safe_birthday_for_year bday today.year) today = true →
      occurrenceFor bday today = safe_birthday_for_year bday (today.year + 1)) ∧
    (dateLtB (safe_birthday_for_year bday today.year) today = false →
      occurrenceFor bday today = safe_birthday_for_year bday today.year) ∧
    dateLtB (occurrenceFor bday today) today = false := by
  refine ⟨?_, ?_, occurrence_not_before_today bday today⟩
  · intro h
    unfold occurrenceFor
    rw [if_pos h]
  · intro h
    unfold occurrenceFor
    rw [if_neg (by simp [h])]

/-- C2 witness: a past occurrence rolls to the next year, a not-yet
occurrence stays in the current year. -/
theorem occurrence_recomputed_next_year_witness :
    occurrenceFor ⟨1990, 1, 1⟩ ⟨2024, 12, 31⟩ = ⟨2025, 1, 1⟩ ∧
    occurrenceFor ⟨2000, 2, 29⟩ ⟨2023, 2, 28⟩ = ⟨2023, 2, 28⟩ :=
  ⟨((occurrence_recomputed_next_year ⟨1990, 1, 1⟩ ⟨2024, 12, 31⟩).1 (by decide)).trans
      (by decide),
   ((occurrence_recomputed_next_year ⟨2000, 2, 29⟩ ⟨2023, 2, 28⟩).2.1 (by decide)).trans
      (by decide)⟩

/-- C3: the congratulation date is the occurrence plus two days on a
Saturday (weekday 5), plus one day on a Sunday (weekday 6), and the
occurrence itself otherwise; weekdays are numbered from Monday = 0 in a
seven-day week (grounded on concrete dates), and in the weekend
scenario a Saturday occurrence is shifted to the following Monday, and
excluded when the shift pushes the distance beyond the window. -/
theorem congrat_weekend_shift (occ : Date) :
    (weekday occ = 5 → congratOf occ = addDays occ 2) ∧
    (weekday occ = 6 → congratOf occ = addDays occ 1) ∧
    (weekday occ ≠ 5 → weekday occ ≠ 6 → congratOf occ = occ) ∧
    weekday occ < 7 ∧
    weekday ⟨2025, 1, 6⟩ = 0 ∧ weekday ⟨2025, 1, 4⟩ = 5 ∧ weekday ⟨2025, 1, 5⟩ = 6 ∧
    get_upcoming_birthdays ⟨[⟨"S", [], some ⟨⟨1992, 1, 4⟩⟩⟩]⟩ ⟨2025, 1, 1⟩ 7 =
      [⟨"S", "06.01.2025"⟩] ∧
    get_upcoming_birthdays ⟨[⟨"S", [], some ⟨⟨1992, 1, 4⟩⟩⟩]⟩ ⟨2025, 1, 1⟩ 4 = [] := by
  refine ⟨?_, ?_, ?_, ?_, by decide, by decide, by decide, by rfl, by rfl⟩
  · intro h
    unfold congratOf
    rw [if_pos h]
  · intro h
    unfold congratOf
    rw [if_neg (by omega), if_pos h]
  · intro h5 h6
    unfold congratOf
    rw [if_neg h5, if_neg h6]
  · unfold weekday
    omega

/-- C3 witness: the three shift cases at concrete dates. -/
theorem congrat_weekend_shift_witness :
    congratOf ⟨2025, 1, 4⟩ = ⟨2025, 1, 6⟩ ∧
    congratOf ⟨2025, 1, 5⟩ = ⟨2025, 1, 6⟩ ∧
    congratOf ⟨2025, 1, 1⟩ = ⟨2025, 1, 1⟩ :=
  ⟨((congrat_weekend_shift ⟨2025, 1, 4⟩).1 (by decide)).trans (by decide),
   ((congrat_weekend_shift ⟨2025, 1, 5⟩).2.1 (by decide)).trans (by decide),
   (congrat_weekend_shift ⟨2025, 1, 1⟩).2.2.1 (by decide) (by decide)⟩

/-- C4: a record with a birthday contributes an entry exactly when
0 <= delta <= windowDays for delta the whole-day distance from today to
its congratulation date; records without a birthday never contribute; a
negative window yields the empty result (the function is total, so no
input fails); and every returned entry carries the record name and
the congratulation date rendered as DD.MM.YYYY. -/
theorem upcoming_inclusion_iff (book : AddressBook) (today : Date) (days : Int) :
    (∀ r ∈ book.records, r.birthday = none → processRecord today days r = none) ∧
    (∀ r ∈ book.records, ∀ b, r.birthday = some b →
      ((processRecord today days r).isSome ↔
        (0 ≤ deltaFor b.date today ∧ deltaFor b.date today ≤ days))) ∧
    (days < 0 → get_upcoming_birthdays book today days = []) ∧
    (∀ e, e ∈ get_upcoming_birthdays book today days ↔
      ∃ r ∈ book.records, ∃ b, r.birthday = some b ∧
        0 ≤ deltaFor b.date today ∧ deltaFor b.date today ≤ days ∧
        e = ⟨r.name, pyFormatDate (congratulationDateFor b.date today)⟩) := by
  refine ⟨?_, ?_, fun h => get_upcoming_neg book today h,
    fun e => mem_get_upcoming_iff book today days e⟩
  · intro r _ h
    exact processRecord_none _ _ _ h
  · intro r _ b hb
    rw [processRecord_some today days r b hb]
    by_cases hc : 0 ≤ deltaFor b.date today ∧ deltaFor b.date today ≤ days
    · rw [if_pos hc]
      simp [hc]
    · rw [if_neg hc]
      simp [hc]

/-- C4 witness: inclusion at delta 0 with the rendered date, and the
empty result for a negative window. -/
theorem upcoming_inclusion_iff_witness :
    (⟨"Olena", "28.02.2023"⟩ : Entry) ∈
      get_upcoming_birthdays ⟨[⟨"Olena", [], some ⟨⟨2000, 2, 29⟩⟩⟩]⟩ ⟨2023, 2, 28⟩ 7 ∧
    get_upcoming_birthdays ⟨[⟨"Olena", [], some ⟨⟨2000, 2, 29⟩⟩⟩]⟩ ⟨2023, 2, 28⟩ (-1) = [] :=
  ⟨((upcoming_inclusion_iff ⟨[⟨"Olena", [], some ⟨⟨2000, 2, 29⟩⟩⟩]⟩ ⟨2023, 2, 28⟩ 7).2.2.2
      ⟨"Olena", "28.02.2023"⟩).mpr
    ⟨⟨"Olena", [], some ⟨⟨2000, 2, 29⟩⟩⟩, by simp, ⟨⟨2000, 2, 29⟩⟩, rfl, by decide, by decide,
      by rfl⟩,
   (upcoming_inclusion_iff ⟨[⟨"Olena", [], some ⟨⟨2000, 2, 29⟩⟩⟩]⟩ ⟨2023, 2, 28⟩ (-1)).2.2.1
    (by decide)⟩

/-- C5: the output of get_upcoming_birthdays is the rendering of the
collected entries sorted ascending by congratulation date; the sort is
stable (entries with any one congratulation date keep their original
relative order), and being a pure function of the book, today and the
window, the output is deterministic; in the concrete sorting scenario the
entry dated 01.01.2025 precedes the one dated 03.01.2025. -/
theorem upcoming_sorted_stable (book : AddressBook) (today : Date) (days : Int) :
    List.Sorted entryLe (List.insertionSort entryLe (upcomingUnsorted book today days)) ∧
    (∀ d : Date,
      (List.insertionSort entryLe (upcomingUnsorted book today days)).filter
          (fun e => e.congrat == d) =
        (upcomingUnsorted book today days).filter (fun e => e.congrat == d)) ∧
    get_upcoming_birthdays book today days =
      (List.insertionSort entryLe (upcomingUnsorted book today days)).map renderEntry ∧
    get_upcoming_birthdays
        ⟨[⟨"A", [], some ⟨⟨1990, 1, 3⟩⟩⟩, ⟨"B", [], some ⟨⟨1990, 1, 1⟩⟩⟩]⟩ ⟨2024, 12, 31⟩ 7 =
      [⟨"B", "01.01.2025"⟩, ⟨"A", "03.01.2025"⟩] :=
  ⟨List.sorted_insertionSort entryLe _, fun d => filter_insertionSort_congr d _, rfl, by rfl⟩

/-- C5 witness at the concrete sorting scenario. -/
theorem upcoming_sorted_stable_witness :
    get_upcoming_birthdays
        ⟨[⟨"A", [], some ⟨⟨1990, 1, 3⟩⟩⟩, ⟨"B", [], some ⟨⟨1990, 1, 1⟩⟩⟩]⟩ ⟨2024, 12, 31⟩ 7 =
      [⟨"B", "01.01.2025"⟩, ⟨"A", "03.01.2025"⟩] :=
  (upcoming_sorted_stable
    ⟨[⟨"A", [], some ⟨⟨1990, 1, 3⟩⟩⟩, ⟨"B", [], some ⟨⟨1990, 1, 1⟩⟩⟩]⟩ ⟨2024, 12, 31⟩ 7).2.2.2

/-- C6 counterexample: a ten-character string of superscript-two
characters — none of which is a decimal digit — is accepted by the
Phone constructor, so acceptance is not characterized by all characters
being decimal digits. -/
theorem phone_accepts_superscript_digits :
    phone_init "²²²²²²²²²²" = .ok "²²²²²²²²²²" ∧
    "²²²²²²²²²²".data.all Char.isDigit = false :=
  ⟨by rfl, by rfl⟩

/-- C6 amended: Phone construction succeeds exactly when the trimmed
input has length 10 and every character is classified as a digit by the
str.isdigit predicate (which accepts the Unicode digit characters, not
only ASCII 0-9); on success the stored value is the trimmed input; on
any other input it fails with the validation error. -/
theorem phone_init_ok_iff (s t : String) :
    phone_init s = .ok t ↔
      ((pyStrip s).data.length = 10 ∧ (pyStrip s).data.all pyIsDigit = true ∧
        t = pyStrip s) := by
  unfold phone_init
  constructor
  · intro h
    split at h
    case isTrue => cases h
    case isFalse hc =>
      have ht : t = pyStrip s := (Except.ok.inj h).symm
      simp only [Bool.or_eq_true, Bool.not_eq_true', not_or, Bool.not_eq_false] at hc
      obtain ⟨hA, hB⟩ := hc
      have hAll : (pyStrip s).data.all pyIsDigit = true := by
        simp only [pyStrIsDigit, Bool.and_eq_true] at hA
        exact hA.2
      exact ⟨by simpa using hB, hAll, ht⟩
  · rintro ⟨h1, h2, rfl⟩
    have hne : (pyStrip s).data.isEmpty = false := by
      cases hv : (pyStrip s).data with
      | nil => rw [hv] at h1; simp at h1
      | cons a l => rfl
    rw [if_neg (by simp [pyStrIsDigit, hne, h2, h1])]

/-- C6 witness: the amended characterization instantiated on a
concrete valid input with surrounding whitespace. -/
theorem phone_init_ok_iff_witness :
    phone_init " 1234567890 " = .ok "1234567890" :=
  (phone_init_ok_iff " 1234567890 " "1234567890").mpr ⟨by rfl, by rfl, by rfl⟩

/-- The strict DD.MM.YYYY shape the spec describes: exactly two digit
characters, a dot, two digits, a dot, four digits.  Written from the
words of the spec, for comparison with the implemented parser. -/
def matchesStrictFormat (s : String) : Bool :=
  match s.data with
  | [d1, d2, s1, m1, m2, s2, y1, y2, y3, y4] =>
    d1.isDigit && d2.isDigit && (s1 == '.') && m1.isDigit && m2.isDigit && (s2 == '.') &&
      y1.isDigit && y2.isDigit && y3.isDigit && y4.isDigit
  | _ => false

/-- C7 counterexample: the input 1.2.2020 does not match the strict
two-digit day, two-digit month shape, yet Birthday construction
succeeds on it (strptime accepts one-digit day and month groups), and
is normalized to 01.02.2020. -/
theorem birthday_accepts_single_digit_day :
    matchesStrictFormat (pyStrip "1.2.2020") = false ∧
    birthday_init "1.2.2020" = .ok ⟨⟨2020, 2, 1⟩⟩ ∧
    Birthday.value ⟨⟨2020, 2, 1⟩⟩ = "01.02.2020" :=
  ⟨by rfl, by rfl, by rfl⟩

/-- C7 amended: Birthday construction succeeds exactly when the
trimmed input is day.month.year where the day group matches the
strptime day pattern (30 or 31; an ASCII 1 or 2 followed by any
Unicode decimal digit; an ASCII 01 through 09; or a single ASCII 1-9),
the month group matches the ASCII-only month pattern (10 to 12, 01 to
09, or a single 1-9), the year group is exactly four Unicode decimal
digits, and the three values form a real calendar date with year at
least 1; impossible dates such as 31.02.2020 are rejected; on success
storage is normalized to DD.MM.YYYY (zero-padded ASCII, not
necessarily the original string) and a structured date is exposed; all
other inputs fail with the validation error. -/
theorem birthday_init_ok_iff (s : String) (b : Birthday) :
    (birthday_init s = .ok b ↔
      ∃ ds ms ys : List Char,
        (pyStrip s).data = ds ++ '.' :: (ms ++ '.' :: ys) ∧
        dayGroupOK ds = true ∧ monthGroupOK ms = true ∧
        ys.length = 4 ∧ ys.all pyIsDecimal = true ∧
        isValidDate ⟨natOfDigits ys, natOfDigits ms, natOfDigits ds⟩ ∧
        b = ⟨⟨natOfDigits ys, natOfDigits ms, natOfDigits ds⟩⟩) ∧
    b.value = pyFormatDate b.date_value ∧
    birthday_init "31.02.2020" = .error "Невірний формат дати, має бути: DD.MM.YYYY" := by
  refine ⟨?_, rfl, by rfl⟩
  unfold birthday_init
  constructor
  · intro h
    cases hp : parseBirthday (pyStrip s).data with
    | none =>
      rw [hp] at h
      cases h
    | some d =>
      rw [hp] at h
      have hb : Birthday.mk d = b := Except.ok.inj h
      obtain ⟨ds, ms, ys, he, h1, h2, h3, h4, h5, hd⟩ :=
        (parseBirthday_eq_some_iff _ d).mp hp
      exact ⟨ds, ms, ys, he, h1, h2, h3, h4, h5, by rw [← hb, hd]⟩
  · rintro ⟨ds, ms, ys, he, h1, h2, h3, h4, h5, rfl⟩
    have hp : parseBirthday (pyStrip s).data =
        some ⟨natOfDigits ys, natOfDigits ms, natOfDigits ds⟩ :=
      (parseBirthday_eq_some_iff _ _).mpr ⟨ds, ms, ys, he, h1, h2, h3, h4, h5, rfl⟩
    rw [hp]

/-- C7 witness: the amended characterization instantiated on a concrete
date with surrounding whitespace. -/
theorem birthday_init_ok_iff_witness :
    birthday_init " 29.02.2000 " = .ok ⟨⟨2000, 2, 29⟩⟩ :=
  ((birthday_init_ok_iff " 29.02.2000 " ⟨⟨2000, 2, 29⟩⟩).1).mpr
    ⟨['2', '9'], ['0', '2'], ['2', '0', '0', '0'], by rfl, by decide, by decide, by decide,
      by decide, by decide, rfl⟩

/-- C8 counterexample: with phones [1111111111], editing with
oldRaw = 1111111111 (which occurs exactly once) and the untrimmed
newRaw = space 1111111111 succeeds, but find_phone on the raw newRaw
still fails (the stored value is the trimmed one), and find_phone on
oldRaw still succeeds (the trimmed newRaw equals oldRaw). -/
theorem edit_phone_untrimmed_new_raw :
    edit_phone ⟨"A", ["1111111111"], none⟩ "1111111111" " 1111111111" =
      .ok ⟨"A", ["1111111111"], none⟩ ∧
    (⟨"A", ["1111111111"], none⟩ : Record).phones.count "1111111111" = 1 ∧
    find_phone ⟨"A", ["1111111111"], none⟩ " 1111111111" = none ∧
    find_phone ⟨"A", ["1111111111"], none⟩ "1111111111" = some "1111111111" :=
  ⟨by rfl, by rfl, by rfl, by rfl⟩

/-- C8 amended: edit_phone fails with the not-found error and changes
nothing when no stored phone equals oldRaw; when oldRaw is stored,
newRaw is validated as a Phone and its normalized (trimmed) value
replaces the first occurrence of oldRaw in place, so the position in
the sequence is unchanged; find_phone then succeeds on the normalized
newRaw value, and fails on oldRaw provided oldRaw occurred exactly once
and differs from the normalized newRaw. -/
theorem edit_phone_spec (r : Record) (old new nv : String)
    (hval : phone_init new = .ok nv) :
    (find_phone r old = none →
      edit_phone r old new = .error ("Old phone " ++ old ++ " not found")) ∧
    (old ∈ r.phones →
      edit_phone r old new = .ok ⟨r.name, replaceFirst r.phones old nv, r.birthday⟩ ∧
      (∃ i, r.phones.get? i = some old ∧ (∀ j, j < i → r.phones.get? j ≠ some old) ∧
        replaceFirst r.phones old nv = r.phones.set i nv) ∧
      find_phone ⟨r.name, replaceFirst r.phones old nv, r.birthday⟩ nv = some nv ∧
      (r.phones.count old = 1 → nv ≠ old →
        find_phone ⟨r.name, replaceFirst r.phones old nv, r.birthday⟩ old = none)) := by
  constructor
  · intro h
    unfold edit_phone
    rw [h]
  · intro hmem
    have hf : find_phone r old = some old := find?_beq_of_mem r.phones old hmem
    refine ⟨?_, replaceFirst_spec r.phones old nv hmem, ?_, ?_⟩
    · unfold edit_phone
      rw [hf, hval]
    · exact find?_beq_of_mem _ nv (mem_replaceFirst _ _ _ hmem)
    · intro hc hne
      exact find?_beq_eq_none _ old (not_mem_replaceFirst _ _ _ hc hne)

/-- C8 witness: the concrete scenario of the spec, both the successful edit
and the not-found failure. -/
theorem edit_phone_spec_witness :
    edit_phone ⟨"A", ["1111111111"], none⟩ "1111111111" "2222222222" =
      .ok ⟨"A", ["2222222222"], none⟩ ∧
    find_phone ⟨"A", ["2222222222"], none⟩ "2222222222" = some "2222222222" ∧
    find_phone ⟨"A", ["2222222222"], none⟩ "1111111111" = none ∧
    edit_phone ⟨"A", ["1111111111"], none⟩ "9999999999" "2222222222" =
      .error "Old phone 9999999999 not found" := by
  have h := edit_phone_spec ⟨"A", ["1111111111"], none⟩ "1111111111" "2222222222" "2222222222"
    (by rfl)
  have h9 := edit_phone_spec ⟨"A", ["1111111111"], none⟩ "9999999999" "2222222222" "2222222222"
    (by rfl)
  have h2 := h.2 (by simp)
  exact ⟨h2.1.trans (by rfl), h2.2.2.1, h2.2.2.2 (by rfl) (by decide), h9.1 (by rfl)⟩

/-- C9: saving a Directory to a path and loading from that path yields
the very same Directory, so the rendered output is byte-identical, with
every name, phone and birthday string recovered exactly; loading from
an absent path yields a fresh empty Directory whose rendering is the
empty marker. -/
theorem save_load_roundtrip (book : AddressBook) (filename : String) (fs : FileSystem) :
    load_data filename (save_data book filename fs) = book ∧
    addressBook_str (load_data filename (save_data book filename fs)) = addressBook_str book ∧
    (fs filename = none →
      load_data filename fs = ⟨[]⟩ ∧ addressBook_str (load_data filename fs) = "[]") := by
  have h1 : load_data filename (save_data book filename fs) = book := by
    unfold load_data save_data
    rw [if_pos rfl]
  refine ⟨h1, by rw [h1], ?_⟩
  intro h
  unfold load_data
  rw [h]
  exact ⟨rfl, rfl⟩

/-- C9 witness: round-trip of a concrete one-record Directory through
an empty file system, and the fresh empty Directory on a missing path. -/
theorem save_load_roundtrip_witness :
    load_data "addressbook.pkl"
        (save_data ⟨[⟨"Olena", ["1234567890"], some ⟨⟨2000, 2, 29⟩⟩⟩]⟩ "addressbook.pkl"
          (fun _ => none)) =
      ⟨[⟨"Olena", ["1234567890"], some ⟨⟨2000, 2, 29⟩⟩⟩]⟩ ∧
    load_data "addressbook.pkl" (fun _ => none) = ⟨[]⟩ :=
  ⟨(save_load_roundtrip ⟨[⟨"Olena", ["1234567890"], some ⟨⟨2000, 2, 29⟩⟩⟩]⟩ "addressbook.pkl"
      (fun _ => none)).1,
   ((save_load_roundtrip ⟨[⟨"Olena", ["1234567890"], some ⟨⟨2000, 2, 29⟩⟩⟩]⟩ "addressbook.pkl"
      (fun _ => none)).2.2 rfl).1⟩

/-- C10: a ten-character string of fullwidth digit characters contains
no ASCII decimal digit, yet Phone construction succeeds on it: the
digit check accepts Unicode digit characters beyond ASCII 0-9. -/
theorem phone_accepts_fullwidth_digits :
    phone_init "１１１１１１１１１１" = .ok "１１１１１１１１１１" ∧
    "１１１１１１１１１１".length = 10 ∧
    "１１１１１１１１１１".data.all (fun c => !c.isDigit) = true :=
  ⟨by rfl, by rfl, by rfl⟩
